import Mathlib

/-!
Verification of the derived-metrics pipeline of the SI649 affordable-housing
repository.  The Python sources are shallowly embedded in Lean:

* `generate_data_simple.py` (lines 35-56): the per-city policy-coverage record
  builder (RatioComputer in the spec).  Python dicts are modelled as
  association lists of field name / field value, Python `round(x, n)`
  (round-half-to-even on the exact value) is modelled on `ℚ`.
* `partner_template.py` (lines 105-143): the city-type rollup (`by_type`,
  GroupAggregator), the label-offset heuristic (`label_dy`,
  LabelPlacementSolver), and (lines 307-334) the annualize / year-floor /
  inner-merge pipeline (`covid_trends`, TimeSeriesMerger).
* `app.py` (lines 402-425) and `create_visualizations_altair.py`
  (lines 188-192): the duplicate-summing, sorting, per-group running-sum
  builder (`df_cumulative`, CumulativeSeriesBuilder).

Pandas `groupby(key)` sorts the group keys in ascending order (its default
`sort=True`); it is embedded as `dedup` followed by `insertionSort`.
Machine floats are modelled by exact rationals; where the Python code divides
by zero, pandas/numpy produce `NaN` — any statement touching such a point
models the result as `Option` (`none` = `NaN`) or is noted in place.
-/

/-- Python `round` to an integer: round half to even (banker's rounding),
exact on rationals. -/
def pyRoundZ (q : ℚ) : ℤ :=
  if q - (⌊q⌋ : ℚ) < 1 / 2 then ⌊q⌋
  else if 1 / 2 < q - (⌊q⌋ : ℚ) then ⌊q⌋ + 1
  else if ⌊q⌋ % 2 = 0 then ⌊q⌋ else ⌊q⌋ + 1

/-- Python `round(q, ndigits)` on an exact rational. -/
def pyRound (ndigits : ℕ) (q : ℚ) : ℚ :=
  (pyRoundZ (q * 10 ^ ndigits) : ℚ) / 10 ^ ndigits

lemma pyRoundZ_low (q : ℚ) (f : ℤ) (h1 : (f : ℚ) ≤ q) (h2 : q - (f : ℚ) < 1 / 2) :
    pyRoundZ q = f := by
  have hf : ⌊q⌋ = f := Int.floor_eq_iff.mpr ⟨h1, by linarith⟩
  rw [pyRoundZ, hf, if_pos h2]

lemma pyRoundZ_high (q : ℚ) (f : ℤ) (h1 : (f : ℚ) ≤ q) (h1' : q < (f : ℚ) + 1)
    (h2 : 1 / 2 < q - (f : ℚ)) : pyRoundZ q = f + 1 := by
  have hf : ⌊q⌋ = f := Int.floor_eq_iff.mpr ⟨h1, by linarith⟩
  rw [pyRoundZ, hf, if_neg (by linarith), if_pos h2]

lemma pyRound_zero (n : ℕ) : pyRound n 0 = 0 := by
  have h : pyRoundZ 0 = 0 := pyRoundZ_low 0 0 (by norm_num) (by norm_num)
  simp [pyRound, h]

/-- A value stored in one of the Python dicts written to the CSV outputs. -/
inductive FieldVal where
  | str (s : String)
  | int (n : ℤ)
  | rat (q : ℚ)
  | bool (b : Bool)
  deriving DecidableEq

/-- The coverage-ratio expression of `generate_data_simple.py` line 44:
`(total_subsidized / cost_burden_renters * 100) if cost_burden_renters > 0
else 0`. -/
def coverage_ratio (total_subsidized cost_burden_renters : ℤ) : ℚ :=
  if 0 < cost_burden_renters then
    (total_subsidized : ℚ) / (cost_burden_renters : ℚ) * 100
  else 0

/-- One record appended to `policy_data` by `generate_data_simple.py`
lines 42-56, as a field-name / field-value association list.  The inputs are
the already-scaled counts (`public_housing`, `vouchers`, `lihtc`, `section8`,
`cost_burden_renters`) that the surrounding loop draws before this block. -/
def policy_data_record (city : String)
    (public_housing vouchers lihtc s8 cost_burden_renters : ℤ) :
    List (String × FieldVal) :=
  let total_subsidized := public_housing + vouchers + lihtc + s8
  let cr := coverage_ratio total_subsidized cost_burden_renters
  [("city", .str city),
   ("severe_cost_burden_renters", .int cost_burden_renters),
   ("public_housing_units", .int public_housing),
   ("voucher_households", .int vouchers),
   ("lihtc_units", .int lihtc),
   ("section8_units", .int s8),
   ("total_subsidized", .int total_subsidized),
   ("coverage_ratio", .rat (pyRound 2 cr)),
   ("subsidized_per_100_burdened", .rat (pyRound 2 cr))]

/-- Modelled from the spec: §4.1/§6 say a record with a zero demand
denominator "is marked with an undefined-denominator flag" in the emitted
ratio table.  A flag is a boolean field of the record; this predicate holds
iff the record carries any boolean-valued field at all. -/
def hasUndefinedDenominatorFlag (row : List (String × FieldVal)) : Bool :=
  row.any fun kv => match kv.2 with | .bool _ => true | _ => false

/-- C5 (counterexample): the claim says the ratio is `(s / d) * 100` rounded
to ONE decimal place; the code (line 54) rounds to TWO decimal places.  At
supply 1000 (= 500 + 300 + 100 + 100) and demand 3000 the stored ratio is
33.33, while rounding `1000 / 3000 * 100` to one decimal gives 33.3. -/
theorem coverage_ratio_not_one_decimal :
    List.lookup "coverage_ratio" (policy_data_record "Springfield" 500 300 100 100 3000)
        = some (.rat (3333 / 100))
      ∧ (3333 / 100 : ℚ) ≠ pyRound 1 ((1000 : ℚ) / 3000 * 100) := by
  have e1 : coverage_ratio (500 + 300 + 100 + 100) 3000 = 100 / 3 := by
    rw [coverage_ratio, if_pos (by norm_num : (0 : ℤ) < 3000)]; norm_num
  have e2 : pyRound 2 ((100 : ℚ) / 3) = 3333 / 100 := by
    rw [pyRound, show ((100 : ℚ) / 3 * 10 ^ 2) = 10000 / 3 by norm_num,
      pyRoundZ_low (10000 / 3) 3333 (by norm_num) (by norm_num)]
    norm_num
  have e3 : pyRound 1 ((100 : ℚ) / 3) = 333 / 10 := by
    rw [pyRound, show ((100 : ℚ) / 3 * 10 ^ 1) = 1000 / 3 by norm_num,
      pyRoundZ_low (1000 / 3) 333 (by norm_num) (by norm_num)]
    norm_num
  constructor
  · have h : List.lookup "coverage_ratio"
        (policy_data_record "Springfield" 500 300 100 100 3000)
        = some (.rat (pyRound 2 (coverage_ratio (500 + 300 + 100 + 100) 3000))) := rfl
    rw [h, e1, e2]
  · rw [show ((1000 : ℚ) / 3000 * 100) = 100 / 3 by norm_num, e3]
    norm_num

/-- C5 (amended): for demand `d > 0` the stored `coverage_ratio` field is
`(s / d) * 100` rounded to TWO decimal places, where `s` is the sum of the
four program supplies. -/
theorem coverage_ratio_two_decimals (city : String) (ph v li s8 d : ℤ)
    (hd : 0 < d) :
    List.lookup "coverage_ratio" (policy_data_record city ph v li s8 d)
      = some (.rat (pyRound 2 (((ph : ℚ) + v + li + s8) / (d : ℚ) * 100))) := by
  have h : List.lookup "coverage_ratio" (policy_data_record city ph v li s8 d)
      = some (.rat (pyRound 2 (coverage_ratio (ph + v + li + s8) d))) := rfl
  rw [h, coverage_ratio, if_pos hd]
  norm_num

/-- C5 (witness): the amended statement at city "X", supplies 1, 2, 3, 4 and
demand 2. -/
theorem coverage_ratio_two_decimals_witness :
    List.lookup "coverage_ratio" (policy_data_record "X" 1 2 3 4 2)
      = some (.rat (pyRound 2 (((1 : ℚ) + 2 + 3 + 4) / (2 : ℚ) * 100))) :=
  coverage_ratio_two_decimals "X" 1 2 3 4 2 (by decide)

/-- C6 (counterexample): at demand 0 the stored ratio is 0 (that part of the
claim holds), but the emitted record is NOT marked with any
undefined-denominator flag — it carries no boolean field at all, only the
nine data fields. -/
theorem zero_demand_record_not_flagged :
    List.lookup "coverage_ratio" (policy_data_record "Nowhere" 20 50 30 10 0)
        = some (.rat 0)
      ∧ hasUndefinedDenominatorFlag (policy_data_record "Nowhere" 20 50 30 10 0)
        = false := by
  constructor
  · have h : List.lookup "coverage_ratio" (policy_data_record "Nowhere" 20 50 30 10 0)
        = some (.rat (pyRound 2 (coverage_ratio (20 + 50 + 30 + 10) 0))) := rfl
    rw [h, show coverage_ratio (20 + 50 + 30 + 10) 0 = 0 from rfl, pyRound_zero]
  · rfl

/-- C6 (amended): if demand is 0 the ratio field is 0 and no fault is raised
(the guard on line 44 makes the computation total), but the record carries no
undefined-denominator flag; and a record with positive demand and zero supply
also gets ratio 0, likewise unflagged. -/
theorem zero_denominator_policy (city : String) (ph v li s8 : ℤ) :
    (List.lookup "coverage_ratio" (policy_data_record city ph v li s8 0)
        = some (.rat 0)
      ∧ hasUndefinedDenominatorFlag (policy_data_record city ph v li s8 0)
        = false)
    ∧ ∀ d : ℤ, 0 < d →
        List.lookup "coverage_ratio" (policy_data_record city 0 0 0 0 d)
            = some (.rat 0)
          ∧ hasUndefinedDenominatorFlag (policy_data_record city 0 0 0 0 d)
            = false := by
  refine ⟨⟨?_, rfl⟩, fun d hd => ⟨?_, rfl⟩⟩
  · have h : List.lookup "coverage_ratio" (policy_data_record city ph v li s8 0)
        = some (.rat (pyRound 2 (coverage_ratio (ph + v + li + s8) 0))) := rfl
    rw [h, show coverage_ratio (ph + v + li + s8) 0 = 0 from rfl, pyRound_zero]
  · have h : List.lookup "coverage_ratio" (policy_data_record city 0 0 0 0 d)
        = some (.rat (pyRound 2 (coverage_ratio (0 + 0 + 0 + 0) d))) := rfl
    rw [h, coverage_ratio, if_pos hd]
    norm_num [pyRound_zero]

/-- C6 (witness): the amended statement at city "W", all supplies 0 and
demand 7. -/
theorem zero_denominator_policy_witness :
    List.lookup "coverage_ratio" (policy_data_record "W" 0 0 0 0 7)
        = some (.rat 0)
      ∧ hasUndefinedDenominatorFlag (policy_data_record "W" 0 0 0 0 7)
        = false :=
  (zero_denominator_policy "W" 0 0 0 0).2 7 (by decide)

/-- C10: in every emitted coverage record the `coverage_ratio` and
`subsidized_per_100_burdened` fields are equal (lines 54-55 store the same
rounded quantity), and `total_subsidized` is the sum of the four per-program
supply counts (line 42). -/
theorem coverage_record_internal_consistency (city : String) (ph v li s8 d : ℤ) :
    List.lookup "coverage_ratio" (policy_data_record city ph v li s8 d)
        = List.lookup "subsidized_per_100_burdened" (policy_data_record city ph v li s8 d)
      ∧ List.lookup "total_subsidized" (policy_data_record city ph v li s8 d)
        = some (.int (ph + v + li + s8)) :=
  ⟨rfl, rfl⟩

/-- The strict lexicographic order on strings, spelled on the underlying
character lists so that concrete comparisons evaluate inside the kernel.  It
agrees with the library order on `String` (`strLt_iff`). -/
def strLt (a b : String) : Prop := List.Lex (· < ·) a.data b.data

instance : DecidableRel strLt := fun a b =>
  inferInstanceAs (Decidable (List.Lex (· < ·) a.data b.data))

/-- The ascending string order used to model the sorted group keys of pandas
`groupby` (its default `sort=True`). -/
def strLE (a b : String) : Prop := strLt a b ∨ a = b

instance : DecidableRel strLE := fun a b =>
  @instDecidableOr _ _ (inferInstanceAs (Decidable (strLt a b))) (String.decEq a b)

lemma strLt_iff (a b : String) : strLt a b ↔ a < b :=
  Iff.symm String.lt_iff_toList_lt

lemma strLE_iff_le (a b : String) : strLE a b ↔ a ≤ b := by
  rw [le_iff_lt_or_eq]
  exact or_congr (strLt_iff a b) Iff.rfl

instance : IsTotal String strLE :=
  ⟨fun a b => by
    rcases le_total a b with h | h
    · exact Or.inl ((strLE_iff_le a b).mpr h)
    · exact Or.inr ((strLE_iff_le b a).mpr h)⟩

instance : IsTrans String strLE :=
  ⟨fun a b c hab hbc => (strLE_iff_le a c).mpr
    (le_trans ((strLE_iff_le a b).mp hab) ((strLE_iff_le b c).mp hbc))⟩

/-- One row of the `coverage.merge(mix[["city", "city_type"]])` frame of
`partner_template.py` lines 99-103, restricted to the three columns the
rollup on lines 105-121 reads. -/
structure MergedCityRow where
  city_type : String
  severe_cost_burden_renters : ℤ
  total_subsidized : ℤ
  deriving DecidableEq

/-- The group keys of `merged.groupby("city_type")` (line 106): the distinct
city types in ascending order (pandas `groupby` sorts keys). -/
def by_type_keys (rows : List MergedCityRow) : List String :=
  ((rows.map (·.city_type)).dedup).insertionSort strLE

/-- The per-group `total_severe` aggregate of lines 107-110. -/
def group_total_severe (rows : List MergedCityRow) (k : String) : ℤ :=
  ((rows.filter fun r => decide (r.city_type = k)).map
    (·.severe_cost_burden_renters)).sum

/-- The per-group `total_subsidized` aggregate of lines 107-110. -/
def group_total_subsidized (rows : List MergedCityRow) (k : String) : ℤ :=
  ((rows.filter fun r => decide (r.city_type = k)).map (·.total_subsidized)).sum

/-- The grand total `by_type["total_severe"].sum()` of line 115: the sum of
the aggregated demand column. -/
def grand_total_severe (rows : List MergedCityRow) : ℤ :=
  ((by_type_keys rows).map (group_total_severe rows)).sum

/-- One row of the `by_type` frame after lines 105-124 of
`partner_template.py` (the `city_type` column is renamed `income_group` on
line 124). -/
structure RollupRow where
  income_group : String
  total_severe : ℤ
  total_subsidized : ℤ
  severely_burdened_pct : ℚ
  subsidized_per_100_burdened : ℚ
  deriving DecidableEq

/-- The `by_type` frame of `partner_template.py` lines 105-124: group by city
type, sum demand and supply, then add the percentage-share column
(`group / by_type["total_severe"].sum() * 100`, lines 114-116) and the
per-100 coverage column (lines 119-121).  A zero denominator makes pandas
produce `NaN` where this rational model produces 0; every statement below
that touches such a point fails in both semantics or assumes the denominator
positive. -/
def by_type (rows : List MergedCityRow) : List RollupRow :=
  (by_type_keys rows).map fun k =>
    { income_group := k
      total_severe := group_total_severe rows k
      total_subsidized := group_total_subsidized rows k
      severely_burdened_pct :=
        (group_total_severe rows k : ℚ) / (grand_total_severe rows : ℚ) * 100
      subsidized_per_100_burdened :=
        (group_total_subsidized rows k : ℚ) / (group_total_severe rows k : ℚ) * 100 }

lemma list_sum_intCast (l : List ℤ) :
    (l.map (Int.cast : ℤ → ℚ)).sum = ((l.sum : ℤ) : ℚ) := by
  induction l with
  | nil => rfl
  | cons a t ih => rw [List.map_cons, List.sum_cons, List.sum_cons, ih, Int.cast_add]

lemma by_type_total_severe_col (rows : List MergedCityRow) :
    (by_type rows).map (·.total_severe)
      = (by_type_keys rows).map (group_total_severe rows) := by
  rw [by_type, List.map_map]; rfl

lemma by_type_pct_col (rows : List MergedCityRow) :
    (by_type rows).map (·.severely_burdened_pct)
      = (by_type_keys rows).map fun k =>
          (group_total_severe rows k : ℚ) / (grand_total_severe rows : ℚ) * 100 := by
  rw [by_type, List.map_map]; rfl

lemma by_type_group_col (rows : List MergedCityRow) :
    (by_type rows).map (·.income_group) = by_type_keys rows := by
  rw [by_type, List.map_map]
  exact List.map_id _

/-- C1 (counterexample): the claim asserts the percentage-share invariant for
EVERY non-empty input, but with a single record of demand 0 the grand total
is 0 and the share column does not sum to 100 (pandas: `0 / 0` gives `NaN`;
in this exact model the junk value 0 — the tolerance fails either way). -/
theorem by_type_pct_sum_breaks_at_zero_demand :
    ¬ |((by_type [⟨"A", 0, 5⟩]).map (·.severely_burdened_pct)).sum - 100|
        ≤ 1 / 1000000 := by
  have hkeys : by_type_keys [⟨"A", 0, 5⟩] = ["A"] := by decide
  have hsev : group_total_severe [⟨"A", 0, 5⟩] "A" = 0 := by decide
  have hgrand : grand_total_severe [⟨"A", 0, 5⟩] = 0 := by decide
  rw [by_type_pct_col, hkeys, List.map_cons, List.map_nil, hsev, hgrand,
    List.sum_cons, List.sum_nil]
  norm_num

/-- C1 (amended): whenever the grand-total demand over the rollup is
positive, the percentage-share column sums to exactly 100, hence in
particular to 100 within the claimed tolerance of 1e-6. -/
theorem by_type_pct_sum_100 (rows : List MergedCityRow)
    (h : 0 < ((by_type rows).map (·.total_severe)).sum) :
    |((by_type rows).map (·.severely_burdened_pct)).sum - 100| ≤ 1 / 1000000 := by
  rw [by_type_total_severe_col] at h
  have hstep : ∀ k ∈ by_type_keys rows,
      (group_total_severe rows k : ℚ) / (grand_total_severe rows : ℚ) * 100
        = (group_total_severe rows k : ℚ) * (100 / (grand_total_severe rows : ℚ)) :=
    fun k _ => by ring
  have hcast : ((by_type_keys rows).map fun k => ((group_total_severe rows k : ℤ) : ℚ))
      = (((by_type_keys rows).map (group_total_severe rows)).map (Int.cast : ℤ → ℚ)) := by
    rw [List.map_map]; rfl
  have hsum : ((by_type rows).map (·.severely_burdened_pct)).sum
      = (grand_total_severe rows : ℚ) * (100 / (grand_total_severe rows : ℚ)) := by
    rw [by_type_pct_col, List.map_congr_left hstep, List.sum_map_mul_right, hcast,
      list_sum_intCast, grand_total_severe]
  have hGne : ((grand_total_severe rows : ℤ) : ℚ) ≠ 0 := by
    exact_mod_cast (show (0 : ℤ) < grand_total_severe rows from h).ne'
  rw [hsum, mul_div_assoc', mul_comm, mul_div_assoc, div_self hGne, mul_one]
  norm_num

/-- C1 (witness): the amended statement on two rows with demands 1 and 3. -/
theorem by_type_pct_sum_100_witness :
    (0 : ℤ) < ((by_type [⟨"A", 1, 2⟩, ⟨"B", 3, 4⟩]).map (·.total_severe)).sum
    ∧ |((by_type [⟨"A", 1, 2⟩, ⟨"B", 3, 4⟩]).map (·.severely_burdened_pct)).sum
        - 100| ≤ 1 / 1000000 :=
  ⟨by decide, by_type_pct_sum_100 _ (by decide)⟩

/-- Modelled from the spec claim for C7: the group keys in the order in which
each one is first seen in the input (fuel-based so that it evaluates
structurally; the fuel `l.length` always suffices). -/
def firstSeenAux : ℕ → List String → List String
  | 0, _ => []
  | _ + 1, [] => []
  | fuel + 1, a :: l => a :: firstSeenAux fuel (l.filter fun b => decide (b ≠ a))

/-- Modelled from the spec claim for C7: first-seen order of the group keys. -/
def firstSeenOrder (l : List String) : List String := firstSeenAux l.length l

/-- C7 (counterexample): with input city types ["B", "A"] the rollup lists
the groups in ascending key order ["A", "B"], not in first-seen order
["B", "A"] (pandas `groupby` sorts group keys by default). -/
theorem by_type_keys_not_first_seen :
    by_type_keys [⟨"B", 1, 1⟩, ⟨"A", 1, 1⟩] = ["A", "B"]
    ∧ firstSeenOrder (([⟨"B", 1, 1⟩, ⟨"A", 1, 1⟩] : List MergedCityRow).map
        (·.city_type)) = ["B", "A"]
    ∧ (["A", "B"] : List String) ≠ ["B", "A"] :=
  ⟨by decide, by decide, by decide⟩

/-- C7 (amended): the rollup lists one row per distinct input group key, in
ascending (sorted) key order — deterministic, but sorted rather than
first-seen. -/
theorem by_type_group_order_sorted (rows : List MergedCityRow) :
    ((by_type rows).map (·.income_group)).Sorted (· ≤ ·)
    ∧ ((by_type rows).map (·.income_group)).Nodup
    ∧ ∀ k, k ∈ (by_type rows).map (·.income_group) ↔ k ∈ rows.map (·.city_type) := by
  rw [by_type_group_col]
  refine ⟨?_, ?_, fun k => ?_⟩
  · exact List.Pairwise.imp (fun hab => (strLE_iff_le _ _).mp hab)
      (List.sorted_insertionSort strLE _)
  · exact ((List.perm_insertionSort strLE _).nodup_iff).mpr (List.nodup_dedup _)
  · rw [by_type_keys, (List.perm_insertionSort strLE _).mem_iff, List.mem_dedup]

/-- pandas `Series.median()`: sort ascending; for an odd count the middle
element, for an even count the mean of the two middle elements. -/
def median_q (l : List ℚ) : ℚ :=
  let s := l.insertionSort (· ≤ ·)
  if s.length % 2 = 1 then s.getD (s.length / 2) 0
  else (s.getD (s.length / 2 - 1) 0 + s.getD (s.length / 2) 0) / 2

/-- pandas `Series.max()` on an integer column (the empty-frame case never
arises in the statements below). -/
def col_max : List ℤ → ℤ
  | [] => 0
  | a :: t => t.foldl max a

/-- pandas `Series.min()` on an integer column. -/
def col_min : List ℤ → ℤ
  | [] => 0
  | a :: t => t.foldl min a

/-- The size normalization `(row["total_severe"] - min_size) / (max_size -
min_size)` of `partner_template.py` lines 137-138. -/
def normalized_size (frame : List RollupRow) (row : RollupRow) : ℚ :=
  ((row.total_severe - col_min (frame.map (·.total_severe)) : ℤ) : ℚ)
    / ((col_max (frame.map (·.total_severe))
        - col_min (frame.map (·.total_severe)) : ℤ) : ℚ)

/-- The `label_dy` column of `partner_template.py` lines 128-139: median of
the `subsidized_per_100_burdened` column, min/max of `total_severe`, then per
row `-25 - normalized * 10` if the row's y is strictly above the median, else
`25 + normalized * 10`.  When all sizes are equal the code divides 0 by 0 and
numpy yields `NaN` for every row of the frame; `none` models that. -/
def label_dy (frame : List RollupRow) (row : RollupRow) : Option ℚ :=
  if col_max (frame.map (·.total_severe)) = col_min (frame.map (·.total_severe))
  then none
  else some
    (if median_q (frame.map (·.subsidized_per_100_burdened))
        < row.subsidized_per_100_burdened
     then -25 - normalized_size frame row * 10
     else 25 + normalized_size frame row * 10)

lemma foldl_max_init_le (t : List ℤ) : ∀ acc : ℤ, acc ≤ t.foldl max acc := by
  induction t with
  | nil => exact fun acc => le_refl acc
  | cons b t ih => exact fun acc => le_trans (le_max_left acc b) (ih (max acc b))

lemma le_foldl_max_of_mem {t : List ℤ} {a : ℤ} (h : a ∈ t) :
    ∀ acc : ℤ, a ≤ t.foldl max acc := by
  induction t with
  | nil => cases h
  | cons b t ih =>
    intro acc
    rcases List.mem_cons.mp h with rfl | h'
    · exact le_trans (le_max_right acc a) (foldl_max_init_le t (max acc a))
    · exact ih h' (max acc b)

lemma foldl_min_le_init (t : List ℤ) : ∀ acc : ℤ, t.foldl min acc ≤ acc := by
  induction t with
  | nil => exact fun acc => le_refl acc
  | cons b t ih => exact fun acc => le_trans (ih (min acc b)) (min_le_left acc b)

lemma foldl_min_le_of_mem {t : List ℤ} {a : ℤ} (h : a ∈ t) :
    ∀ acc : ℤ, t.foldl min acc ≤ a := by
  induction t with
  | nil => cases h
  | cons b t ih =>
    intro acc
    rcases List.mem_cons.mp h with rfl | h'
    · exact le_trans (foldl_min_le_init t (min acc a)) (min_le_right acc a)
    · exact ih h' (min acc b)

lemma le_col_max_of_mem {l : List ℤ} {a : ℤ} (h : a ∈ l) : a ≤ col_max l := by
  cases l with
  | nil => cases h
  | cons b t =>
    rcases List.mem_cons.mp h with rfl | h'
    · exact foldl_max_init_le t a
    · exact le_foldl_max_of_mem h' b

lemma col_min_le_of_mem {l : List ℤ} {a : ℤ} (h : a ∈ l) : col_min l ≤ a := by
  cases l with
  | nil => cases h
  | cons b t =>
    rcases List.mem_cons.mp h with rfl | h'
    · exact foldl_min_le_init t a
    · exact foldl_min_le_of_mem h' b

/-- C8 (counterexample): the claim says normalized(size) is defined as 0 when
all sizes are equal, which would give the at-or-below-median point at y = 10
the offset +25; the code instead divides 0 by 0 (numpy: `NaN`, modelled as
`none`), so no offset value is produced at all. -/
theorem label_dy_undefined_when_sizes_equal :
    label_dy [⟨"A", 5, 0, 0, 10⟩, ⟨"B", 5, 0, 0, 50⟩, ⟨"C", 5, 0, 0, 90⟩]
        ⟨"A", 5, 0, 0, 10⟩ = none
    ∧ (none : Option ℚ) ≠ some 25 :=
  ⟨by decide, by decide⟩

/-- C8 (amended): when the sizes are not all equal, the vertical offset is
`dy = 25 + normalized(size) * 10` with `normalized(size) = (size - min) /
(max - min) ≥ 0`, negated (upward) for a point strictly above the median y
and positive (downward) for a point at or below it; when all sizes are equal
the offsets are undefined (NaN), not 0.  In particular, for y-values
[10, 50, 90] (median 50) with sizes 1, 2, 3 the points at y = 10 and y = 50
get offsets 25 and 30 (non-negative) and the point at y = 90 gets -35
(negative). -/
theorem label_dy_formula :
    (∀ (frame : List RollupRow) (row : RollupRow), row ∈ frame →
      col_max (frame.map (·.total_severe)) ≠ col_min (frame.map (·.total_severe)) →
        0 ≤ normalized_size frame row
        ∧ (median_q (frame.map (·.subsidized_per_100_burdened))
              < row.subsidized_per_100_burdened →
            label_dy frame row = some (-(25 + normalized_size frame row * 10))
            ∧ -(25 + normalized_size frame row * 10) < 0)
        ∧ (row.subsidized_per_100_burdened
              ≤ median_q (frame.map (·.subsidized_per_100_burdened)) →
            label_dy frame row = some (25 + normalized_size frame row * 10)
            ∧ 0 < 25 + normalized_size frame row * 10))
    ∧ label_dy [⟨"A", 1, 0, 0, 10⟩, ⟨"B", 2, 0, 0, 50⟩, ⟨"C", 3, 0, 0, 90⟩]
        ⟨"A", 1, 0, 0, 10⟩ = some 25
    ∧ label_dy [⟨"A", 1, 0, 0, 10⟩, ⟨"B", 2, 0, 0, 50⟩, ⟨"C", 3, 0, 0, 90⟩]
        ⟨"B", 2, 0, 0, 50⟩ = some 30
    ∧ label_dy [⟨"A", 1, 0, 0, 10⟩, ⟨"B", 2, 0, 0, 50⟩, ⟨"C", 3, 0, 0, 90⟩]
        ⟨"C", 3, 0, 0, 90⟩ = some (-35) := by
  have hgen : ∀ (frame : List RollupRow) (row : RollupRow), row ∈ frame →
      col_max (frame.map (·.total_severe)) ≠ col_min (frame.map (·.total_severe)) →
        0 ≤ normalized_size frame row
        ∧ (median_q (frame.map (·.subsidized_per_100_burdened))
              < row.subsidized_per_100_burdened →
            label_dy frame row = some (-(25 + normalized_size frame row * 10))
            ∧ -(25 + normalized_size frame row * 10) < 0)
        ∧ (row.subsidized_per_100_burdened
              ≤ median_q (frame.map (·.subsidized_per_100_burdened)) →
            label_dy frame row = some (25 + normalized_size frame row * 10)
            ∧ 0 < 25 + normalized_size frame row * 10) := by
    intro frame row hmem hne
    have hsz : row.total_severe ∈ frame.map (·.total_severe) :=
      List.mem_map_of_mem _ hmem
    have hminle : col_min (frame.map (·.total_severe)) ≤ row.total_severe :=
      col_min_le_of_mem hsz
    have hminmax : col_min (frame.map (·.total_severe))
        ≤ col_max (frame.map (·.total_severe)) :=
      le_trans hminle (le_col_max_of_mem hsz)
    have hlt : col_min (frame.map (·.total_severe))
        < col_max (frame.map (·.total_severe)) :=
      lt_of_le_of_ne hminmax (fun e => hne e.symm)
    have hden : (0 : ℚ) < ((col_max (frame.map (·.total_severe))
        - col_min (frame.map (·.total_severe)) : ℤ) : ℚ) := by
      exact_mod_cast Int.sub_pos.mpr hlt
    have hnum : (0 : ℚ) ≤ ((row.total_severe
        - col_min (frame.map (·.total_severe)) : ℤ) : ℚ) := by
      exact_mod_cast Int.sub_nonneg.mpr hminle
    have hnn : 0 ≤ normalized_size frame row :=
      div_nonneg hnum (le_of_lt hden)
    refine ⟨hnn, fun habove => ?_, fun hbelow => ?_⟩
    · constructor
      · rw [label_dy, if_neg hne, if_pos habove]
        congr 1
        ring
      · nlinarith [hnn]
    · constructor
      · rw [label_dy, if_neg hne, if_neg (not_lt.mpr hbelow)]
      · nlinarith [hnn]
  have hmed : median_q (([⟨"A", 1, 0, 0, 10⟩, ⟨"B", 2, 0, 0, 50⟩,
      ⟨"C", 3, 0, 0, 90⟩] : List RollupRow).map (·.subsidized_per_100_burdened))
      = 50 := by
    norm_num [median_q, List.insertionSort, List.orderedInsert]
  have hmax : col_max (([⟨"A", 1, 0, 0, 10⟩, ⟨"B", 2, 0, 0, 50⟩,
      ⟨"C", 3, 0, 0, 90⟩] : List RollupRow).map (·.total_severe)) = 3 := by decide
  have hmin : col_min (([⟨"A", 1, 0, 0, 10⟩, ⟨"B", 2, 0, 0, 50⟩,
      ⟨"C", 3, 0, 0, 90⟩] : List RollupRow).map (·.total_severe)) = 1 := by decide
  refine ⟨hgen, ?_, ?_, ?_⟩
  · rw [label_dy, normalized_size, hmax, hmin, hmed,
      if_neg (by norm_num : ¬ (3 : ℤ) = 1), if_neg (by norm_num : ¬ (50 : ℚ) < 10)]
    norm_num
  · rw [label_dy, normalized_size, hmax, hmin, hmed,
      if_neg (by norm_num : ¬ (3 : ℤ) = 1), if_neg (by norm_num : ¬ (50 : ℚ) < 50)]
    norm_num
  · rw [label_dy, normalized_size, hmax, hmin, hmed,
      if_neg (by norm_num : ¬ (3 : ℤ) = 1), if_pos (by norm_num : (50 : ℚ) < 90)]
    norm_num

/-- C8 (witness): the universal part of the amended statement applied to the
point at y = 90 of the concrete three-point frame. -/
theorem label_dy_formula_witness :
    0 ≤ normalized_size [⟨"A", 1, 0, 0, 10⟩, ⟨"B", 2, 0, 0, 50⟩, ⟨"C", 3, 0, 0, 90⟩]
        ⟨"C", 3, 0, 0, 90⟩
    ∧ label_dy [⟨"A", 1, 0, 0, 10⟩, ⟨"B", 2, 0, 0, 50⟩, ⟨"C", 3, 0, 0, 90⟩]
        ⟨"C", 3, 0, 0, 90⟩
      = some (-(25 + normalized_size [⟨"A", 1, 0, 0, 10⟩, ⟨"B", 2, 0, 0, 50⟩,
          ⟨"C", 3, 0, 0, 90⟩] ⟨"C", 3, 0, 0, 90⟩ * 10))
    ∧ -(25 + normalized_size [⟨"A", 1, 0, 0, 10⟩, ⟨"B", 2, 0, 0, 50⟩,
        ⟨"C", 3, 0, 0, 90⟩] ⟨"C", 3, 0, 0, 90⟩ * 10) < 0 := by
  have h := label_dy_formula.1 [⟨"A", 1, 0, 0, 10⟩, ⟨"B", 2, 0, 0, 50⟩,
      ⟨"C", 3, 0, 0, 90⟩] ⟨"C", 3, 0, 0, 90⟩
    (by simp) (by decide)
  have hmed : median_q (([⟨"A", 1, 0, 0, 10⟩, ⟨"B", 2, 0, 0, 50⟩,
      ⟨"C", 3, 0, 0, 90⟩] : List RollupRow).map (·.subsidized_per_100_burdened))
      = 50 := by
    norm_num [median_q, List.insertionSort, List.orderedInsert]
  have habove := h.2.1 (by rw [hmed]; norm_num)
  exact ⟨h.1, habove.1, habove.2⟩

/-- pandas `groupby("year")[col].mean()` for one year: the mean of all
observations falling in that year (`partner_template.py` lines 307-311 and
331). -/
def year_mean (obs : List (ℤ × ℚ)) (y : ℤ) : ℚ :=
  let vals := (obs.filter fun o => decide (o.1 = y)).map Prod.snd
  vals.sum / (vals.length : ℚ)

/-- The sorted distinct years of a source (pandas `groupby("year")` sorts the
keys). -/
def years_of (obs : List (ℤ × ℚ)) : List ℤ :=
  ((obs.map Prod.fst).dedup).insertionSort (· ≤ ·)

/-- One source reduced to one (year, mean value) row per year —
`groupby("year", as_index=False)[col].mean()` of `partner_template.py`
lines 307-311 / line 331. -/
def annualize (obs : List (ℤ × ℚ)) : List (ℤ × ℚ) :=
  (years_of obs).map fun y => (y, year_mean obs y)

/-- The year floor `frame[frame["year"] >= 2010]` of lines 312 and 332. -/
def year_floor (l : List (ℤ × ℚ)) : List (ℤ × ℚ) :=
  l.filter fun r => decide (2010 ≤ r.1)

/-- `pd.merge(a, b, on="year", how="inner")` of line 334 for two one-row-per-
year frames: for each row of the left frame in order, emit the joined row
when the right frame has that year. -/
def merge_inner : List (ℤ × ℚ) → List (ℤ × ℚ) → List (ℤ × ℚ × ℚ)
  | [], _ => []
  | ra :: t, b =>
    match b.lookup ra.1 with
    | none => merge_inner t b
    | some vb => (ra.1, ra.2, vb) :: merge_inner t b

/-- The `covid_trends` frame of `partner_template.py` lines 307-334, starting
from the two per-observation (year, value) feeds: annualize each source by
averaging within each year, drop years before 2010, inner-join on year. -/
def covid_trends (hpi_obs zhvi_obs : List (ℤ × ℚ)) : List (ℤ × ℚ × ℚ) :=
  merge_inner (year_floor (annualize hpi_obs)) (year_floor (annualize zhvi_obs))

lemma lookup_isSome_iff_mem_fst (b : List (ℤ × ℚ)) (y : ℤ) :
    (b.lookup y).isSome = true ↔ y ∈ b.map Prod.fst := by
  induction b with
  | nil => simp [List.lookup]
  | cons p t ih =>
    by_cases h : y = p.1
    · simp [List.lookup, h]
    · have hbeq : (y == p.1) = false := beq_false_of_ne h
      simp [List.lookup, hbeq, ih, h]

lemma merge_inner_fst_mem (a b : List (ℤ × ℚ)) (y : ℤ) :
    y ∈ (merge_inner a b).map (fun r => r.1)
      ↔ y ∈ a.map Prod.fst ∧ y ∈ b.map Prod.fst := by
  induction a with
  | nil => simp [merge_inner]
  | cons ra t ih =>
    cases hl : b.lookup ra.1 with
    | none =>
      have hra : ¬ ra.1 ∈ b.map Prod.fst := by
        rw [← lookup_isSome_iff_mem_fst, hl]
        simp
      simp only [merge_inner, hl, List.map_cons, List.mem_cons, ih]
      constructor
      · exact fun h => ⟨Or.inr h.1, h.2⟩
      · rintro ⟨hy | hy, hb⟩
        · exact absurd (hy ▸ hb) hra
        · exact ⟨hy, hb⟩
    | some vb =>
      have hra : ra.1 ∈ b.map Prod.fst := by
        rw [← lookup_isSome_iff_mem_fst, hl]
        rfl
      simp only [merge_inner, hl, List.map_cons, List.mem_cons, ih]
      constructor
      · rintro (rfl | h)
        · exact ⟨Or.inl rfl, hra⟩
        · exact ⟨Or.inr h.1, h.2⟩
      · rintro ⟨rfl | hy, hb⟩
        · exact Or.inl rfl
        · exact Or.inr ⟨hy, hb⟩

lemma merge_inner_fst_sublist (a b : List (ℤ × ℚ)) :
    ((merge_inner a b).map (fun r => r.1)).Sublist (a.map Prod.fst) := by
  induction a with
  | nil => simp [merge_inner]
  | cons ra t ih =>
    cases hl : b.lookup ra.1 with
    | none =>
      simp only [merge_inner, hl, List.map_cons]
      exact List.Sublist.trans ih (List.sublist_cons_self _ _)
    | some vb =>
      simp only [merge_inner, hl, List.map_cons]
      exact List.Sublist.cons₂ _ ih

lemma years_of_nodup (obs : List (ℤ × ℚ)) : (years_of obs).Nodup :=
  ((List.perm_insertionSort _ _).nodup_iff).mpr (List.nodup_dedup _)

lemma annualize_fst (obs : List (ℤ × ℚ)) :
    (annualize obs).map Prod.fst = years_of obs := by
  rw [annualize, List.map_map]
  exact List.map_id _

lemma year_floor_fst (l : List (ℤ × ℚ)) :
    (year_floor l).map Prod.fst = (l.map Prod.fst).filter fun y => decide (2010 ≤ y) := by
  rw [year_floor, List.filter_map]
  rfl

/-- C2: the merged output of the annualize / floor / inner-join pipeline has
exactly the years present in both surviving (annualized, floored) sources,
each exactly once; and for source A covering 2010..2023 and source B covering
2015..2025 the output is exactly the 9 years 2015..2023. -/
theorem covid_trends_inner_join :
    (∀ hpi_obs zhvi_obs : List (ℤ × ℚ),
      (∀ y : ℤ, y ∈ (covid_trends hpi_obs zhvi_obs).map (fun r => r.1)
          ↔ y ∈ (year_floor (annualize hpi_obs)).map Prod.fst
            ∧ y ∈ (year_floor (annualize zhvi_obs)).map Prod.fst)
      ∧ ((covid_trends hpi_obs zhvi_obs).map (fun r => r.1)).Nodup)
    ∧ (covid_trends ((List.range 14).map fun i => ((2010 + i : ℤ), (1 : ℚ)))
          ((List.range 11).map fun i => ((2015 + i : ℤ), (2 : ℚ)))).map (fun r => r.1)
        = [2015, 2016, 2017, 2018, 2019, 2020, 2021, 2022, 2023]
    ∧ (covid_trends ((List.range 14).map fun i => ((2010 + i : ℤ), (1 : ℚ)))
          ((List.range 11).map fun i => ((2015 + i : ℤ), (2 : ℚ)))).length = 9 := by
  refine ⟨fun hpi_obs zhvi_obs => ⟨fun y => merge_inner_fst_mem _ _ y, ?_⟩, ?_, ?_⟩
  · have hnd : ((year_floor (annualize hpi_obs)).map Prod.fst).Nodup := by
      rw [year_floor_fst, annualize_fst]
      exact (years_of_nodup hpi_obs).filter _
    exact hnd.sublist (merge_inner_fst_sublist _ _)
  · decide
  · decide

/-- One melted ZHVI row of `partner_template.py` lines 320-327 after
`pd.to_datetime(date_str, errors="coerce")`: the parsed date is modelled by
its year — the only component read downstream (`dt.year`, line 329) — with
`none` standing for `NaT`, the result of coercing an unparseable date
string. -/
structure ZhviMeltedRow where
  region : String
  date_year : Option ℤ
  zhvi : ℚ
  deriving DecidableEq

/-- The `zhvi_long.dropna(subset=["date"])` step of line 328: rows whose
date failed to parse are dropped; nothing else is recorded or reported. -/
def zhvi_dropna (rows : List ZhviMeltedRow) : List ZhviMeltedRow :=
  rows.filter fun r => r.date_year.isSome

/-- Lines 329-332: extract the year from the surviving rows and annualize by
averaging, keeping years from 2010 on. -/
def zhvi_year (rows : List ZhviMeltedRow) : List (ℤ × ℚ) :=
  year_floor (annualize ((zhvi_dropna rows).map fun r => (r.date_year.getD 0, r.zhvi)))

/-- C9: with one unparseable date among three melted rows, the offending row
is dropped (the output is exactly the two surviving rows, one row shorter
than the input) and processing continues with the remainder (the annualized
series is built from the survivors).  The dropping and continuation hold; no
count of dropped rows is computed or reported anywhere in the script, which
is the part of the claim the code does not honour. -/
theorem zhvi_dropna_drops_malformed :
    zhvi_dropna [⟨"United States", some 2020, 100⟩, ⟨"United States", none, 7⟩,
        ⟨"United States", some 2020, 300⟩]
      = [⟨"United States", some 2020, 100⟩, ⟨"United States", some 2020, 300⟩]
    ∧ (zhvi_dropna [⟨"United States", some 2020, 100⟩, ⟨"United States", none, 7⟩,
        ⟨"United States", some 2020, 300⟩]).length + 1
      = ([⟨"United States", some 2020, 100⟩, ⟨"United States", none, 7⟩,
          ⟨"United States", some 2020, 300⟩] : List ZhviMeltedRow).length
    ∧ zhvi_year [⟨"United States", some 2020, 100⟩, ⟨"United States", none, 7⟩,
        ⟨"United States", some 2020, 300⟩]
      = [(2020, 200)] := by
  refine ⟨by decide, by decide, ?_⟩
  have h1 : (zhvi_dropna [⟨"United States", some 2020, 100⟩, ⟨"United States", none, 7⟩,
      ⟨"United States", some 2020, 300⟩]).map (fun r => (r.date_year.getD 0, r.zhvi))
      = [((2020 : ℤ), (100 : ℚ)), (2020, 300)] := by decide
  have h2 : years_of [((2020 : ℤ), (100 : ℚ)), (2020, 300)] = [2020] := by decide
  rw [zhvi_year, h1, annualize, h2]
  have h3 : year_mean [((2020 : ℤ), (100 : ℚ)), (2020, 300)] 2020 = 200 := by
    rw [year_mean]
    norm_num [List.filter]
  rw [List.map_cons, List.map_nil, h3, year_floor]
  norm_num [List.filter]

/-- The (city, year) group key of one expiring-units record. -/
def cumKey (r : String × ℤ × ℤ) : String × ℤ := (r.1, r.2.1)

/-- The expiring-units value of one record. -/
def cumVal (r : String × ℤ × ℤ) : ℤ := r.2.2

/-- Ascending (city, year) order: lexicographic, string order on the city
then integer order on the year — the order of `sort_values(["city", "year"])`
and of the sorted keys of `groupby(["city", "year"])`. -/
def keyLE (a b : String × ℤ) : Prop := strLt a.1 b.1 ∨ (a.1 = b.1 ∧ a.2 ≤ b.2)

/-- The strict version of `keyLE`. -/
def keyLT (a b : String × ℤ) : Prop := strLt a.1 b.1 ∨ (a.1 = b.1 ∧ a.2 < b.2)

instance : DecidableRel keyLE := fun a b =>
  @instDecidableOr _ _ (inferInstanceAs (Decidable (strLt a.1 b.1)))
    (@instDecidableAnd _ _ (String.decEq a.1 b.1) (Int.decLe a.2 b.2))

lemma strLt_irrefl (a : String) : ¬ strLt a a :=
  fun h => lt_irrefl a ((strLt_iff a a).mp h)

instance : IsTotal (String × ℤ) keyLE :=
  ⟨fun a b => by
    rcases lt_trichotomy a.1 b.1 with h | h | h
    · exact Or.inl (Or.inl ((strLt_iff _ _).mpr h))
    · rcases le_total a.2 b.2 with h2 | h2
      · exact Or.inl (Or.inr ⟨h, h2⟩)
      · exact Or.inr (Or.inr ⟨h.symm, h2⟩)
    · exact Or.inr (Or.inl ((strLt_iff _ _).mpr h))⟩

instance : IsTrans (String × ℤ) keyLE :=
  ⟨fun a b c hab hbc => by
    rcases hab with h1 | ⟨e1, l1⟩
    · rcases hbc with h2 | ⟨e2, l2⟩
      · exact Or.inl ((strLt_iff _ _).mpr
          (lt_trans ((strLt_iff _ _).mp h1) ((strLt_iff _ _).mp h2)))
      · exact Or.inl (e2 ▸ h1)
    · rcases hbc with h2 | ⟨e2, l2⟩
      · exact Or.inl (by rw [strLt, e1]; exact h2)
      · exact Or.inr ⟨e1.trans e2, le_trans l1 l2⟩⟩

lemma keyLT_of_keyLE_of_ne {a b : String × ℤ} (h : keyLE a b) (hne : a ≠ b) :
    keyLT a b := by
  rcases h with h | ⟨e, l⟩
  · exact Or.inl h
  · exact Or.inr ⟨e, lt_of_le_of_ne l fun e2 => hne (Prod.ext e e2)⟩

lemma keyLT_same_fst {a b : String × ℤ} (h : keyLT a b) (e : a.1 = b.1) :
    a.2 < b.2 := by
  rcases h with h | ⟨_, l⟩
  · exact absurd (e ▸ h) (strLt_irrefl b.1)
  · exact l

/-- The sorted distinct (city, year) keys of `groupby(["city", "year"])`
(`app.py` line 402 / `create_visualizations_altair.py` line 188; pandas
sorts the group keys, and the later `sort_values(["city", "year"])` keeps
that order). -/
def agg_keys (rows : List (String × ℤ × ℤ)) : List (String × ℤ) :=
  ((rows.map cumKey).dedup).insertionSort keyLE

/-- The summed `expiring_units` of one (city, year) group (the
`.agg` with `"sum"`). -/
def agg_value (rows : List (String × ℤ × ℤ)) (k : String × ℤ) : ℤ :=
  ((rows.filter fun r => decide (cumKey r = k)).map cumVal).sum

/-- The aggregated, sorted `df_summary` frame of `app.py` lines 402-404 (and
the `expiring_cumulative` frame of `create_visualizations_altair.py`
lines 188-190 before the cumsum column): one (city, year, summed value) row
per distinct key, in ascending (city, year) order. -/
def df_summary (rows : List (String × ℤ × ℤ)) : List (String × ℤ × ℤ) :=
  (agg_keys rows).map fun k => (k.1, k.2, agg_value rows k)

/-- pandas `groupby("city")["expiring_units"].cumsum()` (`app.py` line 425,
`create_visualizations_altair.py` line 192): each row receives the sum of
the values at its own and all earlier positions with the same city; `prev`
is the list of rows already passed. -/
def cum_go (prev : List (String × ℤ × ℤ)) :
    List (String × ℤ × ℤ) → List (String × ℤ × ℤ × ℤ)
  | [] => []
  | r :: rest =>
    (r.1, r.2.1, r.2.2,
      (((prev ++ [r]).filter fun q => decide (q.1 = r.1)).map cumVal).sum)
      :: cum_go (prev ++ [r]) rest

/-- The `df_cumulative` frame of `app.py` lines 423-425 (equally
`expiring_cumulative` of `create_visualizations_altair.py` lines 188-192):
aggregate duplicate (city, year) pairs by summation, sort by (city, year),
then attach the per-city running sum. -/
def df_cumulative (rows : List (String × ℤ × ℤ)) : List (String × ℤ × ℤ × ℤ) :=
  cum_go [] (df_summary rows)

lemma agg_keys_nodup (rows : List (String × ℤ × ℤ)) : (agg_keys rows).Nodup :=
  ((List.perm_insertionSort keyLE _).nodup_iff).mpr (List.nodup_dedup _)

lemma agg_keys_sorted (rows : List (String × ℤ × ℤ)) :
    (agg_keys rows).Sorted keyLE :=
  List.sorted_insertionSort keyLE _

lemma agg_keys_pairwise_lt (rows : List (String × ℤ × ℤ)) :
    (agg_keys rows).Pairwise keyLT :=
  List.Pairwise.imp₂ (fun _ _ hle hne => keyLT_of_keyLE_of_ne hle hne)
    (agg_keys_sorted rows) (agg_keys_nodup rows)

lemma mem_agg_keys (rows : List (String × ℤ × ℤ)) (k : String × ℤ) :
    k ∈ agg_keys rows ↔ k ∈ rows.map cumKey := by
  rw [agg_keys, (List.perm_insertionSort keyLE _).mem_iff, List.mem_dedup]

lemma df_summary_keys (rows : List (String × ℤ × ℤ)) :
    (df_summary rows).map cumKey = agg_keys rows := by
  rw [df_summary, List.map_map]
  exact List.map_id _

lemma cum_go_strip (l : List (String × ℤ × ℤ)) :
    ∀ prev, (cum_go prev l).map (fun r => (r.1, r.2.1, r.2.2.1)) = l := by
  induction l with
  | nil => intro prev; rfl
  | cons r rest ih =>
    intro prev
    rw [cum_go, List.map_cons, ih]

lemma cum_go_char (l : List (String × ℤ × ℤ)) :
    ∀ prev : List (String × ℤ × ℤ),
      ((prev ++ l).map cumKey).Pairwise keyLT →
      ∀ r ∈ cum_go prev l,
        r.2.2.2 = (((prev ++ l).filter fun q =>
            decide (q.1 = r.1 ∧ q.2.1 ≤ r.2.1)).map cumVal).sum := by
  induction l with
  | nil => intro prev _ r hr; cases hr
  | cons x rest ih =>
    intro prev hpw r hr
    rw [cum_go] at hr
    rcases List.mem_cons.mp hr with rfl | hr'
    · have hpw2 := hpw
      rw [List.map_append, List.map_cons] at hpw2
      rcases List.pairwise_append.mp hpw2 with ⟨_, hl2, hcross⟩
      rcases List.pairwise_cons.mp hl2 with ⟨hhead, _⟩
      have hprevle : ∀ q ∈ prev, q.1 = x.1 → q.2.1 ≤ x.2.1 := by
        intro q hq e
        have hk : keyLT (cumKey q) (cumKey x) :=
          hcross (cumKey q) (List.mem_map_of_mem cumKey hq) (cumKey x)
            (List.mem_cons_self _ _)
        exact le_of_lt (keyLT_same_fst hk e)
      have hrest : ∀ q ∈ rest, ¬ (q.1 = x.1 ∧ q.2.1 ≤ x.2.1) := by
        rintro q hq ⟨e, hle⟩
        have hk : keyLT (cumKey x) (cumKey q) :=
          hhead (cumKey q) (List.mem_map_of_mem cumKey hq)
        exact absurd (keyLT_same_fst hk e.symm) (not_lt.mpr hle)
      show (((prev ++ [x]).filter fun q => decide (q.1 = x.1)).map cumVal).sum
          = (((prev ++ x :: rest).filter fun q =>
              decide (q.1 = x.1 ∧ q.2.1 ≤ x.2.1)).map cumVal).sum
      have hprevfilter : (prev.filter fun q => decide (q.1 = x.1 ∧ q.2.1 ≤ x.2.1))
          = prev.filter fun q => decide (q.1 = x.1) := by
        refine List.filter_congr fun q hq => ?_
        exact decide_eq_decide.mpr
          ⟨fun h => h.1, fun h => ⟨h, hprevle q hq h⟩⟩
      have hrestfilter : (rest.filter fun q =>
          decide (q.1 = x.1 ∧ q.2.1 ≤ x.2.1)) = [] := by
        rw [List.filter_eq_nil_iff]
        intro q hq
        simpa using hrest q hq
      rw [List.filter_append, List.filter_append, List.filter_cons_of_pos (by simp),
        List.filter_cons_of_pos (by simp), hprevfilter, hrestfilter,
        List.filter_nil]
    · have hpw' : (((prev ++ [x]) ++ rest).map cumKey).Pairwise keyLT := by
        rw [List.append_assoc]
        exact hpw
      have hres := ih (prev ++ [x]) hpw' r hr'
      rwa [List.append_assoc] at hres

lemma df_cumulative_cum (rows : List (String × ℤ × ℤ)) :
    ∀ r ∈ df_cumulative rows,
      r.2.2.2 = (((df_summary rows).filter fun q =>
          decide (q.1 = r.1 ∧ q.2.1 ≤ r.2.1)).map cumVal).sum := by
  intro r hr
  have hpw : ((([] : List (String × ℤ × ℤ)) ++ df_summary rows).map cumKey).Pairwise
      keyLT := by
    rw [List.nil_append, df_summary_keys]
    exact agg_keys_pairwise_lt rows
  have hres := cum_go_char (df_summary rows) [] hpw r hr
  rwa [List.nil_append] at hres

lemma sum_partition {K R : Type} [DecidableEq K] (key : R → K) (val : R → ℤ) :
    ∀ (keys : List K) (rows : List R), keys.Nodup → (∀ r ∈ rows, key r ∈ keys) →
      (keys.map fun k => ((rows.filter fun r => decide (key r = k)).map val).sum).sum
        = (rows.map val).sum := by
  intro keys
  induction keys with
  | nil =>
    intro rows _ hall
    cases rows with
    | nil => rfl
    | cons r t => exact absurd (hall r (List.mem_cons_self r t)) (List.not_mem_nil _)
  | cons k0 ks ih =>
    intro rows hnd hall
    have hsplit : (rows.map val).sum
        = ((rows.filter fun r => decide (key r = k0)).map val).sum
          + ((rows.filter fun r => ! decide (key r = k0)).map val).sum := by
      have hperm : List.Perm ((rows.filter fun r => decide (key r = k0))
            ++ rows.filter fun r => ! decide (key r = k0)) rows :=
        List.filter_append_perm _ rows
      rw [← (hperm.map val).sum_eq, List.map_append, List.sum_append]
    rw [List.map_cons, List.sum_cons, hsplit]
    congr 1
    have hk0 : k0 ∉ ks := (List.nodup_cons.mp hnd).1
    have hks : ∀ k ∈ ks, ((rows.filter fun r => ! decide (key r = k0)).filter
          fun r => decide (key r = k))
        = rows.filter fun r => decide (key r = k) := by
      intro k hk
      rw [List.filter_filter]
      refine List.filter_congr fun r _ => ?_
      by_cases h : key r = k
      · have hne : ¬ k = k0 := fun e => hk0 (e ▸ hk)
        simp [h, hne]
      · simp [h]
    have hall' : ∀ r ∈ rows.filter fun r => ! decide (key r = k0), key r ∈ ks := by
      intro r hr
      rcases List.mem_filter.mp hr with ⟨hmem, hne⟩
      rcases List.mem_cons.mp (hall r hmem) with h | h
      · rw [h] at hne
        simp at hne
      · exact h
    calc (ks.map fun k => ((rows.filter fun r => decide (key r = k)).map val).sum).sum
        = (ks.map fun k => (((rows.filter fun r => ! decide (key r = k0)).filter
            fun r => decide (key r = k)).map val).sum).sum := by
          exact congrArg List.sum (List.map_congr_left fun k hk => by rw [hks k hk])
      _ = ((rows.filter fun r => ! decide (key r = k0)).map val).sum :=
          ih _ (List.nodup_cons.mp hnd).2 hall'

lemma df_summary_sum_filter (rows : List (String × ℤ × ℤ)) (p : String × ℤ → Bool) :
    (((df_summary rows).filter fun q => p (q.1, q.2.1)).map cumVal).sum
      = ((rows.filter fun r => p (cumKey r)).map cumVal).sum := by
  have h1 : (((df_summary rows).filter fun q => p (q.1, q.2.1)).map cumVal).sum
      = (((agg_keys rows).filter p).map (agg_value rows)).sum := by
    rw [df_summary, List.filter_map, List.map_map]
    rfl
  have hall : ∀ r ∈ rows.filter fun r => p (cumKey r),
      cumKey r ∈ (agg_keys rows).filter p := by
    intro r hr
    rcases List.mem_filter.mp hr with ⟨hmem, hp⟩
    exact List.mem_filter.mpr
      ⟨(mem_agg_keys rows _).mpr (List.mem_map_of_mem cumKey hmem), hp⟩
  have hval : ∀ k ∈ (agg_keys rows).filter p,
      agg_value rows k = (((rows.filter fun r => p (cumKey r)).filter
          fun r => decide (cumKey r = k)).map cumVal).sum := by
    intro k hk
    have hpk : p k = true := (List.mem_filter.mp hk).2
    rw [agg_value]
    have hff : (rows.filter fun r => decide (cumKey r = k))
        = ((rows.filter fun r => p (cumKey r)).filter
            fun r => decide (cumKey r = k)) := by
      rw [List.filter_filter]
      refine List.filter_congr fun r _ => ?_
      by_cases h : cumKey r = k
      · simp [h, hpk]
      · simp [h]
    rw [hff]
  rw [h1, List.map_congr_left hval]
  exact sum_partition cumKey cumVal _ _ ((agg_keys_nodup rows).filter _) hall

lemma df_cumulative_expiring (rows : List (String × ℤ × ℤ)) :
    ∀ r ∈ df_cumulative rows, r.2.2.1 = agg_value rows (r.1, r.2.1) := by
  intro r hr
  have hstrip : (r.1, r.2.1, r.2.2.1) ∈ df_summary rows := by
    rw [← cum_go_strip (df_summary rows) []]
    exact List.mem_map_of_mem _ hr
  rw [df_summary] at hstrip
  rcases List.mem_map.mp hstrip with ⟨k, hk, he⟩
  simp only [Prod.mk.injEq] at he
  have hkeq : k = (r.1, r.2.1) := Prod.ext he.1 he.2.1
  rw [← hkeq]
  exact he.2.2.symm

lemma df_cumulative_cum_input (rows : List (String × ℤ × ℤ)) :
    ∀ r ∈ df_cumulative rows,
      r.2.2.2 = ((rows.filter fun q =>
          decide (q.1 = r.1 ∧ q.2.1 ≤ r.2.1)).map cumVal).sum := by
  intro r hr
  rw [df_cumulative_cum rows r hr]
  exact df_summary_sum_filter rows fun k => decide (k.1 = r.1 ∧ k.2 ≤ r.2.1)

lemma df_cumulative_keys (rows : List (String × ℤ × ℤ)) :
    (df_cumulative rows).map (fun r => (r.1, r.2.1)) = agg_keys rows := by
  have h : (df_cumulative rows).map (fun r => (r.1, r.2.1))
      = ((df_cumulative rows).map (fun r => (r.1, r.2.1, r.2.2.1))).map cumKey := by
    rw [List.map_map]
    rfl
  rw [h, df_cumulative, cum_go_strip, df_summary_keys]

lemma sum_le_of_sublist {l1 l2 : List ℤ} (h : l1.Sublist l2)
    (hnn : ∀ x ∈ l2, 0 ≤ x) : l1.sum ≤ l2.sum := by
  induction h with
  | slnil => exact le_refl 0
  | cons a hs ih =>
    rw [List.sum_cons]
    have hx := ih fun x hx => hnn x (List.mem_cons_of_mem _ hx)
    have ha := hnn a (List.mem_cons_self _ _)
    linarith
  | cons₂ a hs ih =>
    rw [List.sum_cons, List.sum_cons]
    have hx := ih fun x hx => hnn x (List.mem_cons_of_mem _ hx)
    linarith

/-- C3: the cumulative builder first sums duplicate (city, year) pairs —
each output row's `expiring` is the sum of all input values with its exact
key, and its `cumulative` is the sum of all input values with the same city
and a year at most its own — the output rows are in ascending (city, year)
order with one row per distinct input key, and on the concrete input
(A, 2025, 100), (A, 2025, 50), (A, 2026, 10) the output is
(A, 2025, 150, 150) then (A, 2026, 10, 160). -/
theorem df_cumulative_spec :
    (∀ rows : List (String × ℤ × ℤ), ∀ r ∈ df_cumulative rows,
      r.2.2.1 = ((rows.filter fun q =>
          decide (q.1 = r.1 ∧ q.2.1 = r.2.1)).map cumVal).sum
      ∧ r.2.2.2 = ((rows.filter fun q =>
          decide (q.1 = r.1 ∧ q.2.1 ≤ r.2.1)).map cumVal).sum)
    ∧ (∀ rows : List (String × ℤ × ℤ),
      ((df_cumulative rows).map fun r => (r.1, r.2.1)).Pairwise
          (fun a b => a.1 < b.1 ∨ (a.1 = b.1 ∧ a.2 ≤ b.2))
      ∧ ((df_cumulative rows).map fun r => (r.1, r.2.1)).Nodup
      ∧ ∀ (c : String) (y : ℤ),
          ((c, y) ∈ (df_cumulative rows).map fun r => (r.1, r.2.1))
            ↔ (c, y) ∈ rows.map cumKey)
    ∧ df_cumulative [("A", 2025, 100), ("A", 2025, 50), ("A", 2026, 10)]
        = [("A", 2025, 150, 150), ("A", 2026, 10, 160)] := by
  refine ⟨fun rows r hr => ⟨?_, df_cumulative_cum_input rows r hr⟩,
    fun rows => ⟨?_, ?_, fun c y => ?_⟩, by decide⟩
  · rw [df_cumulative_expiring rows r hr, agg_value]
    refine congrArg List.sum (congrArg (List.map cumVal)
      (List.filter_congr fun q _ => ?_))
    exact decide_eq_decide.mpr Prod.ext_iff
  · have hs := agg_keys_sorted rows
    rw [← df_cumulative_keys] at hs
    exact hs.imp fun hab => Or.imp (fun h => (strLt_iff _ _).mp h) id hab
  · rw [df_cumulative_keys]
    exact agg_keys_nodup rows
  · rw [df_cumulative_keys]
    exact mem_agg_keys rows (c, y)

/-- C3 (witness): the cumulative characterization applied to the second
output row of the concrete example — 160 is the sum of the input values with
city A and year at most 2026. -/
theorem df_cumulative_spec_witness :
    (160 : ℤ) = ((([("A", 2025, 100), ("A", 2025, 50), ("A", 2026, 10)]
        : List (String × ℤ × ℤ)).filter fun q =>
          decide (q.1 = "A" ∧ q.2.1 ≤ 2026)).map cumVal).sum :=
  (df_cumulative_spec.1 [("A", 2025, 100), ("A", 2025, 50), ("A", 2026, 10)]
    ("A", 2026, 10, 160) (by decide)).2

/-- C4: within any city whose aggregated per-year values are all
non-negative, the cumulative column is non-decreasing in year order. -/
theorem df_cumulative_monotone (rows : List (String × ℤ × ℤ)) (c : String)
    (hpos : ∀ k ∈ agg_keys rows, k.1 = c → 0 ≤ agg_value rows k) :
    ∀ r1 ∈ df_cumulative rows, ∀ r2 ∈ df_cumulative rows,
      r1.1 = c → r2.1 = c → r1.2.1 ≤ r2.2.1 → r1.2.2.2 ≤ r2.2.2.2 := by
  intro r1 h1 r2 h2 e1 e2 hy
  rw [df_cumulative_cum rows r1 h1, df_cumulative_cum rows r2 h2]
  have hsub : (((df_summary rows).filter fun q =>
        decide (q.1 = r1.1 ∧ q.2.1 ≤ r1.2.1)).map cumVal).Sublist
      (((df_summary rows).filter fun q =>
        decide (q.1 = r2.1 ∧ q.2.1 ≤ r2.2.1)).map cumVal) := by
    refine List.Sublist.map cumVal (List.monotone_filter_right _ fun q hq => ?_)
    rw [decide_eq_true_eq] at hq ⊢
    exact ⟨hq.1.trans (e1.trans e2.symm), hq.2.trans hy⟩
  refine sum_le_of_sublist hsub fun x hx => ?_
  rcases List.mem_map.mp hx with ⟨q, hq, rfl⟩
  rcases List.mem_filter.mp hq with ⟨hqs, hqp⟩
  rw [df_summary] at hqs
  rcases List.mem_map.mp hqs with ⟨k, hk, he⟩
  rw [decide_eq_true_eq] at hqp
  have hq1 : q.1 = k.1 := by rw [← he]
  have hkc : k.1 = c := hq1.symm.trans (hqp.1.trans e2)
  have hval : cumVal q = agg_value rows k := by rw [← he]; rfl
  rw [hval]
  exact hpos k hk hkc

/-- C4 (witness): on the concrete input of C3, city A has all aggregated
values non-negative and the cumulative value at year 2025 is at most the one
at year 2026. -/
theorem df_cumulative_monotone_witness :
    (("A", 2025, 150, 150) : String × ℤ × ℤ × ℤ).2.2.2
      ≤ (("A", 2026, 10, 160) : String × ℤ × ℤ × ℤ).2.2.2 :=
  df_cumulative_monotone [("A", 2025, 100), ("A", 2025, 50), ("A", 2026, 10)] "A"
    (by decide) ("A", 2025, 150, 150) (by decide) ("A", 2026, 10, 160) (by decide)
    rfl rfl (by decide)
